import Mathlib

/-!
Verification of the pigcel extraction-and-statistics pipeline.

This file gives a shallow embedding of the core of the pigcel repository:

* `ExcelWorkbookReader` (src/pigcel/kernel/readers/excel_reader.py): the three
  sheet extractors (`parse_data_worksheet`, `parse_blood_gas_worksheet`,
  `parse_nfs_worksheet`), `get_data` and `get_property_slice`;
* `AnimalsDataModel` (src/pigcel/gui/models/animals_data_model.py): the
  registry of loaded workbooks;
* `AnimalsPoolModel` (src/pigcel/gui/models/animals_pool_model.py):
  `add_animal`, `get_pool_data`, `evaluate_premortem_time_effect`;
* `AnimalsGroupsModel` (src/pigcel/gui/models/animals_groups_model.py):
  `evaluate_global_group_effect`.

Modelling conventions:

* A Python float-or-missing cell is `PyVal := Option ℚ`; `none` models both an
  empty spreadsheet cell (`None`) and the NaN missing marker — the code
  converts `None` cells to `np.nan` and treats NaN as "missing" throughout.
* A pandas `Series`/`DataFrame` is a list of labels (index) together with the
  values / named columns, in order.
* Raised Python exceptions become `Except PigError`.
* External scipy / scikit_posthocs calls (`mannwhitneyu`, `kruskal`,
  `friedmanchisquare`, `posthoc_dunn`) are not part of this repository; they
  enter the embedding as function parameters.  A scipy rank test is modelled as
  `List (List ℚ) → Except Unit PyVal`, where `.error ()` models a raised
  `ValueError` (the documented failure mode, e.g. too few samples or all
  values identical) and `.ok v` a returned p-value (`none` = NaN).
-/

namespace Pigcel

/-- A Python cell / float value: `none` models NaN or an empty cell. -/
abbrev PyVal := Option ℚ

/-- `ExcelWorkbookReader.times`: the canonical 12-label time grid. -/
def times : List String :=
  ["T-30", "T0", "T10", "T20", "T30", "T1H", "T1H30", "T2H", "T3H", "T4H", "T5H", "T6H"]

/-- The exceptions raised by the embedded code.  `nameError` models a Python
`NameError`/`UnboundLocalError` (a local variable referenced before any
assignment); `valueError` a `ValueError` escaping an external call. -/
inductive PigError where
  | unknownProperty
  | invalidTime
  | invalidPoolData
  | nameError (var : String)
  | valueError
  deriving DecidableEq, Repr

/-- A pandas Series: an index of labels and the values, in parallel order. -/
structure PSeries where
  index : List String
  values : List PyVal
  deriving DecidableEq, Repr

/-- Label lookup `series[label]` on a pandas Series (index labels distinct in
all uses here). -/
def seriesGet (s : PSeries) (label : String) : PyVal :=
  s.values.getD (s.index.indexOf label) none

/-- One loaded Excel workbook, reduced to the fixed cell ranges the reader
actually reads.  The openpyxl ranges are rectangular blocks of cells whose
`value` is `None` when the cell is empty:

* `dataProps`  — sheet `Data`, row 6, columns C..U (the property names);
* `dataCells`  — sheet `Data`, block C7:U18: 12 rows (times) × one column per
  property;
* `bgProps`    — sheet `Gaz du sang`, column A, rows 6..30;
* `bgCells`    — sheet `Gaz du sang`, block B6:M30: one row per property ×
  12 columns (times);
* `nfsProps`   — sheet `NFS`, column C, rows 3..16;
* `nfsCells`   — sheet `NFS`, block D3:M16: one row per property × 10 sampled
  columns;
* `filename`   — the animal identifier used by the GUI models. -/
structure Workbook where
  filename : String
  dataProps : List String
  dataCells : List (List PyVal)
  bgProps : List String
  bgCells : List (List PyVal)
  nfsProps : List String
  nfsCells : List (List PyVal)
  deriving DecidableEq, Repr

/-- Column `j` of a row-major block of cells, as pandas builds a DataFrame
column from a list of rows. -/
def column (rows : List (List PyVal)) (j : ℕ) : List PyVal :=
  rows.map (fun r => r.getD j none)

/-- Python `zip(*rows)`: transpose, truncating to the shortest row. -/
def zipTranspose (rows : List (List PyVal)) : List (List PyVal) :=
  match rows with
  | [] => []
  | r :: rs =>
    let n := (rs.map List.length).foldl min r.length
    (List.range n).map (fun i => (r :: rs).map (fun row => row.getD i none))

/-- `ExcelWorkbookReader.parse_data_worksheet`: the block C7:U18 is already one
row per canonical time, one column per property; the DataFrame has
`index = times`, `columns = properties`.  Result: the ordered list of named
columns (each over the canonical index `times`). -/
def parse_data_worksheet (wb : Workbook) : List (String × List PyVal) :=
  (List.range wb.dataProps.length).map
    (fun j => (wb.dataProps.getD j "", column wb.dataCells j))

/-- `ExcelWorkbookReader.parse_blood_gas_worksheet`: the block B6:M30 is one
row per property × one column per time; the code transposes it with
`zip(*cells)` before building the DataFrame with `index = times`. -/
def parse_blood_gas_worksheet (wb : Workbook) : List (String × List PyVal) :=
  (List.range wb.bgProps.length).map
    (fun j => (wb.bgProps.getD j "", column (zipTranspose wb.bgCells) j))

/-- `selected_times` of `parse_nfs_worksheet`: canonical indices populated by
the sparse NFS schedule. -/
def selected_times_nfs : List ℕ := [0, 1, 5, 8, 11]

/-- `selected_values` of `parse_nfs_worksheet`: positions, inside the raw
D..M cell row, of the five sampled values. -/
def selected_values_nfs : List ℕ := [0, 2, 4, 6, 8]

/-- The per-property body of `parse_nfs_worksheet`: start from
`[np.nan] * len(times)` and set `row[selected_times[i]] = values[selected_values[i]]`
for each of the five schedule positions. -/
def nfs_canonical_row (values : List PyVal) : List PyVal :=
  (List.range selected_values_nfs.length).foldl
    (fun row i =>
      row.set (selected_times_nfs.getD i 0) (values.getD (selected_values_nfs.getD i 0) none))
    (List.replicate times.length none)

/-- `ExcelWorkbookReader.parse_nfs_worksheet`: each property row of D3:M16 is
expanded to a full 12-length canonical series via the fixed schedule; after the
final transpose the DataFrame has `index = times`, `columns = properties`. -/
def parse_nfs_worksheet (wb : Workbook) : List (String × List PyVal) :=
  (List.range wb.nfsProps.length).map
    (fun r => (wb.nfsProps.getD r "", nfs_canonical_row (wb.nfsCells.getD r [])))

/-- `ExcelWorkbookReader.get_data`: `pd.concat` along columns of the three
parsed sheets; all three share the index `times`, so the concatenation is the
column list concatenation. -/
def get_data (wb : Workbook) : List (String × List PyVal) :=
  parse_data_worksheet wb ++ parse_blood_gas_worksheet wb ++ parse_nfs_worksheet wb

/-- `data[selected_property]`: the column of `get_data` named `p` (the code
only reads it when the name is present; the lookup is well-defined when the
name is unique among the columns, which the statements below hypothesise). -/
def data_column (wb : Workbook) (p : String) : List PyVal :=
  (((get_data wb).find? (fun c => c.1 = p)).getD (p, [])).2

/-- `ExcelWorkbookReader.get_property_slice`.  The index of `get_data` is
`times` by construction, so the membership test `s not in data.index` is a
membership test against `times`, and `.loc` label lookup is positional lookup
at `times.indexOf`. -/
def get_property_slice (wb : Workbook) (p : String) (sel? : Option (List String)) :
    Except PigError PSeries :=
  if p ∈ (get_data wb).map Prod.fst then
    let sel := match sel? with
      | none => times
      | some ts => ts.filter (fun s => s ∈ times)
    if sel.isEmpty then .error .invalidTime
    else
      .ok ⟨sel, sel.map (fun s => (data_column wb p).getD (times.indexOf s) none)⟩
  else .error .unknownProperty

/-- `AnimalsDataModel` (animals_data_model.py): the registry of loaded
workbooks, in insertion order.  Its `data(index, DisplayRole)` accessor
returns `workbook.filename`. -/
structure AnimalsDataModel where
  workbooks : List Workbook
  deriving DecidableEq, Repr

/-- `AnimalsDataModel.add_workbook`: appends, unless a workbook with the same
filename is already loaded (duplicate ids rejected). -/
def AnimalsDataModel.add_workbook (m : AnimalsDataModel) (wb : Workbook) : AnimalsDataModel :=
  if wb.filename ∈ m.workbooks.map Workbook.filename then m
  else ⟨m.workbooks ++ [wb]⟩

/-- Modelled from the spec: `AnimalsDataModel.get_workbook` is called by
`AnimalsPoolModel.get_pool_data` and `evaluate_premortem_time_effect` but its
definition is absent from the sources.  Per the spec, the SubjectRegistry is
"a mapping from subject id to SubjectRecord, insertion-ordered, ... lookup
service for everything downstream", and its callers treat the result `None` as
"this animal has no loaded workbook": look up the first loaded workbook whose
id (filename) matches, `none` when absent. -/
def AnimalsDataModel.get_workbook (m : AnimalsDataModel) (animal : String) : Option Workbook :=
  m.workbooks.find? (fun wb => wb.filename = animal)

/-- `AnimalsPoolModel` (animals_pool_model.py): the registry back-reference
plus the ordered pool membership list. -/
structure AnimalsPoolModel where
  dataModel : AnimalsDataModel
  animals : List String
  deriving DecidableEq, Repr

/-- `AnimalsPoolModel.add_animal`: return unchanged if the animal is already in
the pool; then scan the data model rows for a row whose DisplayRole text (the
workbook filename) equals the animal, returning unchanged if none matches;
otherwise append the animal at the end. -/
def AnimalsPoolModel.add_animal (m : AnimalsPoolModel) (animal : String) : AnimalsPoolModel :=
  if animal ∈ m.animals then m
  else if m.dataModel.workbooks.any (fun wb => wb.filename = animal) then
    { m with animals := m.animals ++ [animal] }
  else m

/-- The member loop of `AnimalsPoolModel.get_pool_data`, front to back:
a member without a workbook is skipped silently; a member whose
`get_property_slice` raises (`UnknownPropertyError` / `InvalidTimeError`) is
dropped and the error is logged (second component); a member that resolves
contributes its named column.  All contributed slices share the index `times`,
so `pd.concat(axis=1)` is column juxtaposition. -/
def pool_data_loop (dm : AnimalsDataModel) (p : String) :
    List String → List (String × List PyVal) × List PigError
  | [] => ([], [])
  | animal :: rest =>
    let tail := pool_data_loop dm p rest
    match dm.get_workbook animal with
    | none => tail
    | some wb =>
      match get_property_slice wb p none with
      | .error e => (tail.1, e :: tail.2)
      | .ok ps => ((animal, ps.values) :: tail.1, tail.2)

/-- `AnimalsPoolModel.get_pool_data`: run the member loop; raise
`InvalidPoolData` when no member resolved, otherwise return the table whose
columns are the resolved members (index `times`).  The second component is the
log of errors emitted while dropping members. -/
def AnimalsPoolModel.get_pool_data (m : AnimalsPoolModel) (p : String) :
    Except PigError (List (String × List PyVal)) × List PigError :=
  let r := pool_data_loop m.dataModel p m.animals
  if r.1.isEmpty then (.error .invalidPoolData, r.2)
  else (.ok r.1, r.2)

/-- A pool member resolves successfully when it has a loaded workbook whose
property slice does not raise. -/
def resolves (dm : AnimalsDataModel) (p : String) (a : String) : Bool :=
  match dm.get_workbook a with
  | none => false
  | some wb => (get_property_slice wb p none).toBool

/-- The slice values a resolving pool member contributes. -/
def resolved_values (dm : AnimalsDataModel) (p : String) (a : String) : List PyVal :=
  match dm.get_workbook a with
  | none => []
  | some wb =>
    match get_property_slice wb p none with
    | .error _ => []
    | .ok ps => ps.values

/-- A pool member is dropped with a log entry when it has a loaded workbook
but its property slice raises. -/
def dropped (dm : AnimalsDataModel) (p : String) (a : String) : Bool :=
  match dm.get_workbook a with
  | none => false
  | some wb => !(get_property_slice wb p none).toBool

/-- Python `x == np.nan`.  Under IEEE-754 semantics NaN compares unequal to
every float, NaN itself included, so this equality test is `false` for every
value `x` — NaN or not. -/
def py_eq_nan (_ : PyVal) : Bool := false

/-- `try: p = test(...).pvalue except ValueError: p = np.nan`: the value of a
wrapped external rank-test call. -/
def py_test_result (r : Except Unit PyVal) : PyVal :=
  match r with
  | .error _ => none
  | .ok v => v

/-- The backward scan of `evaluate_premortem_time_effect`, embedded with an
explicit fuel counter:

```
last_non_nan_index = len(property_slice) - 1
while property_slice[last_non_nan_index] == np.nan:
    last_non_nan_index -= 1
    if last_non_nan_index < 0:
        last_non_nan_index = len(property_slice) - 1
        break
```

Each loop iteration strictly decreases `i`, so `values.length` steps of fuel
are enough to reproduce the loop exactly.  Because the guard is `py_eq_nan`
(constantly false), the scan in fact never leaves its starting index. -/
def premortem_scan (values : List PyVal) : ℕ → ℕ → ℕ
  | 0, i => i
  | fuel + 1, i =>
    if py_eq_nan (values.getD i none) then
      if i = 0 then values.length - 1
      else premortem_scan values fuel (i - 1)
    else i

/-- The body of the per-animal loop of `evaluate_premortem_time_effect` for
one animal: `none` when the animal is skipped with a logged reason (no
workbook, a raising property slice, a NaN reference value at `'T-30'`, or
`first_index = last_non_nan_index - n_target_times < 0`); otherwise the
contributed column `[reference_value] + property_slice.iloc[first:last+1]`
together with the labels `['T-30'] + property_slice.index[first:last+1]` this
iteration assigns to the loop-local `times` variable. -/
def premortem_animal (dm : AnimalsDataModel) (p : String) (n_target_times : ℕ)
    (animal : String) : Option ((String × List PyVal) × List String) :=
  match dm.get_workbook animal with
  | none => none
  | some wb =>
    match get_property_slice wb p none with
    | .error _ => none
    | .ok ps =>
      match seriesGet ps "T-30" with
      | none => none
      | some reference_value =>
        let last_non_nan_index :=
          premortem_scan ps.values ps.values.length (ps.values.length - 1)
        if (last_non_nan_index : ℤ) - (n_target_times : ℤ) < 0 then none
        else
          let first_index := last_non_nan_index - n_target_times
          let ts := "T-30" ::
            ((ps.index.drop first_index).take (last_non_nan_index + 1 - first_index))
          let vals := some reference_value ::
            ((ps.values.drop first_index).take (last_non_nan_index + 1 - first_index))
          some ((animal, vals), ts)

/-- The per-animal loop of `evaluate_premortem_time_effect`, front to back:
skipped animals contribute nothing; selected animals append their column and
assign the loop-local `times` variable, a later iteration's assignment
overwriting an earlier one.  The second component is the final value of that
variable (`none` when it was never assigned). -/
def premortem_loop (dm : AnimalsDataModel) (p : String) (n_target_times : ℕ) :
    List String → List (String × List PyVal) × Option (List String)
  | [] => ([], none)
  | animal :: rest =>
    let tail := premortem_loop dm p n_target_times rest
    match premortem_animal dm p n_target_times animal with
    | none => tail
    | some (contrib, ts) => (contrib :: tail.1, some (tail.2.getD ts))

/-- The per-animal selection of `evaluate_premortem_time_effect` applied to the
whole pool: the selected animals with their contributed series, and the final
value of the loop-local `times` variable. -/
def premortem_selection (m : AnimalsPoolModel) (p : String) (n_target_times : ℕ) :
    List (String × List PyVal) × Option (List String) :=
  premortem_loop m.dataModel p n_target_times m.animals

/-- A posthoc Dunn matrix as returned to the caller: row/column labels plus the
rows of p-values. -/
structure DunnMatrix where
  index : List String
  columns : List String
  rows : List (List PyVal)
  deriving DecidableEq, Repr

/-- The pair returned by `evaluate_premortem_time_effect`: the Friedman
p-value and the Dunn matrix. -/
structure PremortemResult where
  friedman_pvalue : PyVal
  dunn : DunnMatrix
  deriving DecidableEq, Repr

/-- `AnimalsPoolModel.evaluate_premortem_time_effect`.

* `friedman` models `scipy.stats.friedmanchisquare(*data.to_numpy()).pvalue`
  applied to the per-time rows of the stacked frame (`.error ()` = raised
  `ValueError`, caught and turned into NaN);
* `dunn` models `scikit_posthocs.posthoc_dunn` on the same rows; only a
  `ValueError` is caught (NaN-filled fallback matrix), any other raised error
  propagates.

The window size must lie in `range(1, len(times) - 1)`, else
`InvalidTimeError`.  All contributed series share the same index (the scan
always stops at the last grid position), so `pd.concat(axis=1)` stacks them
positionally.  Both the `try` block and the `except ValueError` fallback read
the loop-local `times` variable; when no animal was selected that variable was
never assigned and Python raises a `NameError`. -/
def AnimalsPoolModel.evaluate_premortem_time_effect
    (friedman : List (List PyVal) → Except Unit PyVal)
    (dunn : List (List PyVal) → Except PigError (List (List PyVal)))
    (m : AnimalsPoolModel) (p : String) (n_target_times : ℕ) :
    Except PigError PremortemResult :=
  if 1 ≤ n_target_times ∧ n_target_times < times.length - 1 then
    let sel := premortem_selection m p n_target_times
    let nrows := ((sel.1.headD ("", [])).2).length
    let frows := (List.range nrows).map (fun i => sel.1.map (fun c => c.2.getD i none))
    let friedman_pvalue : PyVal := py_test_result (friedman frows)
    match dunn frows with
    | .ok mrows =>
      match sel.2 with
      | none => .error (.nameError "times")
      | some ts => .ok ⟨friedman_pvalue, ⟨ts, ts, mrows⟩⟩
    | .error .valueError =>
      match sel.2 with
      | none => .error (.nameError "times")
      | some ts =>
        .ok ⟨friedman_pvalue, ⟨ts, ts, List.replicate ts.length (List.replicate ts.length none)⟩⟩
    | .error e => .error e
  else .error .invalidTime

/-- `AnimalsGroupsModel` (animals_groups_model.py): the ordered mapping from
group name to its pool model and its selected flag. -/
structure AnimalsGroupsModel where
  groups : List (String × AnimalsPoolModel × Bool)
  deriving DecidableEq, Repr

/-- `[(k, v[0]) for k, v in self._groups.items() if v[1]]`: the selected
groups, in insertion order. -/
def AnimalsGroupsModel.selected_groups (g : AnimalsGroupsModel) :
    List (String × AnimalsPoolModel) :=
  g.groups.filterMap (fun t => if t.2.2 then some (t.1, t.2.1) else none)

/-- The `get_pool_data` calls of `evaluate_global_group_effect`, one per
selected group in order; an `InvalidPoolData` (or any other) exception raised
by one pool propagates out of the whole evaluation. -/
def collect_pool_data (p : String) :
    List (String × AnimalsPoolModel) →
    Except PigError (List (String × List (String × List PyVal)))
  | [] => .ok []
  | (name, pool) :: rest =>
    match (pool.get_pool_data p).1 with
    | .error e => .error e
    | .ok pd =>
      match collect_pool_data p rest with
      | .error e => .error e
      | .ok tl => .ok ((name, pd) :: tl)

/-- `[v for v in values_per_animal if not np.isnan(v)]`: the non-missing
values of pool-data row `i` (one value per animal column). -/
def nan_filtered_row (pd : List (String × List PyVal)) (i : ℕ) : List ℚ :=
  pd.filterMap (fun c => c.2.getD i none)

/-- `data_pooled_per_time[t]`: one NaN-filtered sample per selected group at
time row `i`. -/
def group_samples (pooled : List (String × List (String × List PyVal))) (i : ℕ) :
    List (List ℚ) :=
  pooled.map (fun g => nan_filtered_row g.2 i)

/-- The per-time rows of `evaluate_global_group_effect`: at each time, if some
group's sample is empty the p-value is NaN; otherwise the Kruskal-Wallis test
when more than 2 groups, else the two-sided Mann-Whitney U test, a raised
`ValueError` degrading to NaN.  The row is each group's sample size followed
by the p-value. -/
def group_effect_rows
    (mannwhitneyu kruskal : List (List ℚ) → Except Unit PyVal)
    (pooled : List (String × List (String × List PyVal))) : List (List PyVal) :=
  (List.range times.length).map (fun i =>
    let values_per_group := group_samples pooled i
    let p_value : PyVal :=
      if ([] : List ℚ) ∈ values_per_group then none
      else
        py_test_result (if 2 < values_per_group.length then kruskal values_per_group
                        else mannwhitneyu values_per_group)
    values_per_group.map (fun v => (some (v.length : ℚ) : PyVal)) ++ [p_value])

/-- The DataFrame returned by `evaluate_global_group_effect`: index `times`,
one sample-size column per group then the `p value` column. -/
structure GroupEffectResult where
  index : List String
  columns : List String
  rows : List (List PyVal)
  deriving DecidableEq, Repr

/-- `AnimalsGroupsModel.evaluate_global_group_effect`: `None` (modelled
`.ok none`) when fewer than 2 groups are selected; otherwise pool each
selected group's data and build the per-time rows.  `mannwhitneyu` models the
external `scipy.stats.mannwhitneyu(*samples, alternative='two-sided').pvalue`
call and `kruskal` the `scipy.stats.kruskal(*samples).pvalue` call. -/
def AnimalsGroupsModel.evaluate_global_group_effect
    (mannwhitneyu kruskal : List (List ℚ) → Except Unit PyVal)
    (g : AnimalsGroupsModel) (p : String) :
    Except PigError (Option GroupEffectResult) :=
  let sel := g.selected_groups
  if sel.length < 2 then .ok none
  else
    match collect_pool_data p sel with
    | .error e => .error e
    | .ok pooled =>
      .ok (some ⟨times, pooled.map Prod.fst ++ ["p value"],
                 group_effect_rows mannwhitneyu kruskal pooled⟩)

/-! ### Concrete fixtures

Small concrete workbooks, pools and groups used to evaluate the embedding on
explicit inputs. -/

/-- A workbook with a single `Data`-sheet property `FC` whose series is
defined at the first six canonical times and missing afterwards (its last
non-missing sample is at canonical index 5). -/
def wbPig1 : Workbook :=
  { filename := "pig1", dataProps := ["FC"],
    dataCells := [[some 1], [some 2], [some 3], [some 4], [some 5], [some 6],
                  [none], [none], [none], [none], [none], [none]],
    bgProps := [], bgCells := [], nfsProps := [], nfsCells := [] }

/-- A workbook whose `FC` series is defined only at the first two canonical
times: only one valid sample strictly precedes its last non-missing sample. -/
def wbPig2 : Workbook :=
  { filename := "pig2", dataProps := ["FC"],
    dataCells := [[some 10], [some 20], [none], [none], [none], [none],
                  [none], [none], [none], [none], [none], [none]],
    bgProps := [], bgCells := [], nfsProps := [], nfsCells := [] }

/-- The pool of `wbPig1` and `wbPig2`. -/
def poolPigs : AnimalsPoolModel := ⟨⟨[wbPig1, wbPig2]⟩, ["pig1", "pig2"]⟩

/-- A workbook without the property `FC` (its only property is `XX`). -/
def wbBad : Workbook :=
  { filename := "bad", dataProps := ["XX"],
    dataCells := [[none], [none], [none], [none], [none], [none],
                  [none], [none], [none], [none], [none], [none]],
    bgProps := [], bgCells := [], nfsProps := [], nfsCells := [] }

/-- A pool with one member that resolves `FC`, one whose workbook lacks `FC`,
and one with no loaded workbook at all. -/
def poolMixed : AnimalsPoolModel := ⟨⟨[wbPig1, wbBad]⟩, ["pig1", "bad", "ghost"]⟩

/-- A workbook whose `FC` series is missing everywhere (NaN baseline). -/
def wbPig4 : Workbook :=
  { filename := "pig4", dataProps := ["FC"],
    dataCells := [[none], [none], [none], [none], [none], [none],
                  [none], [none], [none], [none], [none], [none]],
    bgProps := [], bgCells := [], nfsProps := [], nfsCells := [] }

/-- A pool whose only member is excluded from the premortem selection. -/
def poolAllExcluded : AnimalsPoolModel := ⟨⟨[wbPig4]⟩, ["pig4"]⟩

/-- A registry with one loaded workbook of id `a`, and an empty pool on it. -/
def wbA : Workbook :=
  { filename := "a", dataProps := [], dataCells := [], bgProps := [], bgCells := [],
    nfsProps := [], nfsCells := [] }

/-- The empty pool over the registry `[wbA]`. -/
def poolEmptyReg : AnimalsPoolModel := ⟨⟨[wbA]⟩, []⟩

/-- A workbook whose every relevant data cell is empty, for all three sheets. -/
def wbEmptyCells : Workbook :=
  { filename := "empty", dataProps := ["a"], dataCells := [[none]],
    bgProps := ["b"], bgCells := [[none]],
    nfsProps := ["c"], nfsCells := [[none]] }

/-- An NFS sheet row with the five distinct sampled values 1..5 at the raw
sampled positions 0, 2, 4, 6, 8 of the D..M cell block. -/
def wbNFS : Workbook :=
  { filename := "nfs", dataProps := [], dataCells := [], bgProps := [], bgCells := [],
    nfsProps := ["Hb"],
    nfsCells := [[some 1, none, some 2, none, some 3, none, some 4, none, some 5, none]] }

/-- Group-effect fixture: `FC` defined at every canonical time (values 1..12). -/
def wbG1 : Workbook :=
  { filename := "a1", dataProps := ["FC"],
    dataCells := [[some 1], [some 2], [some 3], [some 4], [some 5], [some 6],
                  [some 7], [some 8], [some 9], [some 10], [some 11], [some 12]],
    bgProps := [], bgCells := [], nfsProps := [], nfsCells := [] }

/-- Group-effect fixture: `FC` missing at the first canonical time only. -/
def wbG2 : Workbook :=
  { filename := "b1", dataProps := ["FC"],
    dataCells := [[none], [some 21], [some 22], [some 23], [some 24], [some 25],
                  [some 26], [some 27], [some 28], [some 29], [some 30], [some 31]],
    bgProps := [], bgCells := [], nfsProps := [], nfsCells := [] }

/-- First group's pool: the single animal `a1`. -/
def poolG1 : AnimalsPoolModel := ⟨⟨[wbG1, wbG2]⟩, ["a1"]⟩

/-- Second group's pool: the single animal `b1`. -/
def poolG2 : AnimalsPoolModel := ⟨⟨[wbG1, wbG2]⟩, ["b1"]⟩

/-- A groups model with exactly two selected groups. -/
def groupsTwo : AnimalsGroupsModel := ⟨[("g1", poolG1, true), ("g2", poolG2, true)]⟩

/-- A stand-in for the external two-sided Mann-Whitney U call that returns the
p-value 1/2 on every input. -/
def mwHalf : List (List ℚ) → Except Unit PyVal := fun _ => .ok (some (1/2))

/-- A stand-in for the external Kruskal-Wallis call that raises `ValueError`
on every input. -/
def kwErr : List (List ℚ) → Except Unit PyVal := fun _ => .error ()

/-- The pooled per-group data of `groupsTwo` for the property `FC`. -/
def pooledTwo : List (String × List (String × List PyVal)) :=
  [("g1", [("a1", [some 1, some 2, some 3, some 4, some 5, some 6,
                   some 7, some 8, some 9, some 10, some 11, some 12])]),
   ("g2", [("b1", [none, some 21, some 22, some 23, some 24, some 25,
                   some 26, some 27, some 28, some 29, some 30, some 31])])]

/-- A Friedman stand-in raising `ValueError` on every input. -/
def friedmanErr : List (List PyVal) → Except Unit PyVal := fun _ => .error ()

/-- A posthoc-Dunn stand-in raising `ValueError` on every input. -/
def dunnErr : List (List PyVal) → Except PigError (List (List PyVal)) :=
  fun _ => .error .valueError

/-! ### Helper lemmas -/

/-- `find?` returns the head of the filtered list. -/
theorem find?_eq_head?_filter {α : Type} (l : List α) (p : α → Bool) :
    l.find? p = (l.filter p).head? := by
  induction l with
  | nil => rfl
  | cons x xs ih =>
    by_cases h : p x
    · rw [List.find?_cons_of_pos _ h, List.filter_cons_of_pos h, List.head?_cons]
    · rw [List.find?_cons_of_neg _ h, List.filter_cons_of_neg h, ih]

/-- `getD` over a `range`-indexed `map`. -/
theorem getD_range_map {α : Type} (f : ℕ → α) (n k : ℕ) (hk : k < n) (d : α) :
    ((List.range n).map f).getD k d = f k := by
  rw [List.getD_eq_getElem?_getD, List.getElem?_map, List.getElem?_range hk]
  rfl

/-- `getD` of a list whose members are all `none` is `none`. -/
theorem getD_all_none (r : List PyVal) (h : ∀ v ∈ r, v = none) (j : ℕ) :
    r.getD j none = none := by
  rw [List.getD_eq_getElem?_getD]
  cases hj : r[j]? with
  | none => rfl
  | some v => exact h v (List.getElem?_mem hj)

/-- The five explicit updates of `nfs_canonical_row`, unfolded. -/
theorem nfs_row_explicit (values : List PyVal) :
    nfs_canonical_row values =
      [values.getD 0 none, values.getD 2 none, none, none, none,
       values.getD 4 none, none, none, values.getD 6 none, none, none,
       values.getD 8 none] := rfl

/-! ### C7 — Pool.add idempotence -/

/-- C7: for every pool state, adding a subject id already present leaves the
pool unchanged, adding an id not loaded in the registry leaves the pool
unchanged, and a new, registered id is appended at the end. -/
theorem add_animal_spec (m : AnimalsPoolModel) (a : String) :
    (a ∈ m.animals → m.add_animal a = m) ∧
    (a ∉ m.dataModel.workbooks.map Workbook.filename → m.add_animal a = m) ∧
    (a ∉ m.animals → a ∈ m.dataModel.workbooks.map Workbook.filename →
      m.add_animal a = { m with animals := m.animals ++ [a] }) := by
  refine ⟨fun h => ?_, fun h => ?_, fun h1 h2 => ?_⟩
  · simp [AnimalsPoolModel.add_animal, h]
  · by_cases hmem : a ∈ m.animals
    · simp [AnimalsPoolModel.add_animal, hmem]
    · have hany : m.dataModel.workbooks.any (fun wb => wb.filename = a) = false := by
        simp only [List.any_eq_false, decide_eq_true_eq]
        intro wb hwb heq
        exact h (List.mem_map.mpr ⟨wb, hwb, heq⟩)
      simp [AnimalsPoolModel.add_animal, hmem, hany]
  · have hany : m.dataModel.workbooks.any (fun wb => wb.filename = a) = true := by
      obtain ⟨wb, hwb, heq⟩ := List.mem_map.mp h2
      exact List.any_eq_true.mpr ⟨wb, hwb, by simp [heq]⟩
    simp [AnimalsPoolModel.add_animal, h1, hany]

/-- C7 witness: over the registry `[wbA]`, adding `a` twice to the empty pool
yields a pool of size 1, and adding the unregistered id `zz` is a no-op. -/
theorem add_animal_spec_witness :
    ((poolEmptyReg.add_animal "a").add_animal "a").animals = ["a"] ∧
    poolEmptyReg.add_animal "zz" = poolEmptyReg := by
  have h1 := (add_animal_spec poolEmptyReg "a").2.2 (by decide) (by decide)
  have h2 := (add_animal_spec (poolEmptyReg.add_animal "a") "a").1 (by rw [h1]; decide)
  have h3 := (add_animal_spec poolEmptyReg "zz").2.1 (by decide)
  refine ⟨?_, h3⟩
  rw [h2, h1]
  rfl

/-! ### C5 — sparse-sampled NFS extraction -/

/-- C5: every property row of the NFS sheet is expanded to a 12-length
canonical series with the missing marker at every canonical index outside the
fixed schedule `{0, 1, 5, 8, 11}`, and at the `i`-th schedule index the value
is the raw sampled value at the fixed raw position `selected_values_nfs[i]` of
the cell row — the fixed sampled-index to canonical-index lookup table. -/
theorem nfs_sparse_schedule (wb : Workbook) (k : ℕ) (hk : k < wb.nfsProps.length) :
    (parse_nfs_worksheet wb).getD k ("", []) =
      (wb.nfsProps.getD k "", nfs_canonical_row (wb.nfsCells.getD k [])) ∧
    (nfs_canonical_row (wb.nfsCells.getD k [])).length = 12 ∧
    (∀ j : Fin 12, (j : ℕ) ∉ selected_times_nfs →
      (nfs_canonical_row (wb.nfsCells.getD k [])).getD j none = none) ∧
    (∀ i : Fin 5,
      (nfs_canonical_row (wb.nfsCells.getD k [])).getD (selected_times_nfs.getD i 0) none =
        (wb.nfsCells.getD k []).getD (selected_values_nfs.getD i 0) none) := by
  refine ⟨getD_range_map _ _ k hk _, by rw [nfs_row_explicit]; rfl, fun j hj => ?_, fun i => ?_⟩
  · rw [nfs_row_explicit]
    fin_cases j
    all_goals first
      | rfl
      | exact absurd (by decide) hj
  · rw [nfs_row_explicit]
    fin_cases i
    all_goals rfl

/-- C5 witness: for the NFS row with sampled values 1..5, canonical index 2 is
missing and canonical index 11 carries the fifth sampled value. -/
theorem nfs_sparse_schedule_witness :
    (nfs_canonical_row (wbNFS.nfsCells.getD 0 [])).getD 2 none = none ∧
    (nfs_canonical_row (wbNFS.nfsCells.getD 0 [])).getD 11 none = some 5 := by
  have h := nfs_sparse_schedule wbNFS 0 (by decide)
  exact ⟨h.2.2.1 ⟨2, by decide⟩ (by decide), h.2.2.2 ⟨4, by decide⟩⟩

/-! ### C9 — empty sheets extract to all-missing tables -/

/-- Columns built from all-`none` rows are all-`none`. -/
theorem column_all_none (rows : List (List PyVal))
    (h : ∀ r ∈ rows, ∀ v ∈ r, v = none) (j : ℕ) :
    ∀ v ∈ column rows j, v = none := by
  intro v hv
  simp only [column, List.mem_map] at hv
  obtain ⟨r, hr, rfl⟩ := hv
  exact getD_all_none r (h r hr) j

/-- `zip(*rows)` of all-`none` rows is all-`none`. -/
theorem zipTranspose_all_none (rows : List (List PyVal))
    (h : ∀ r ∈ rows, ∀ v ∈ r, v = none) :
    ∀ r' ∈ zipTranspose rows, ∀ v ∈ r', v = none := by
  intro r' hr' v hv
  match rows, h with
  | [], _ => simp [zipTranspose] at hr'
  | r :: rs, h =>
    simp only [zipTranspose, List.mem_map] at hr'
    obtain ⟨i, _, rfl⟩ := hr'
    simp only [List.mem_map] at hv
    obtain ⟨row, hrow, rfl⟩ := hv
    exact getD_all_none row (h row hrow) i

/-- An element of `l.getD k []` is an element of an element of `l`. -/
theorem getD_nested_all_none (l : List (List PyVal))
    (h : ∀ r ∈ l, ∀ v ∈ r, v = none) (k : ℕ) :
    ∀ v ∈ l.getD k [], v = none := by
  intro v hv
  rw [List.getD_eq_getElem?_getD] at hv
  cases hk : l[k]? with
  | none => rw [hk] at hv; simp at hv
  | some r => rw [hk] at hv; exact h r (List.getElem?_mem hk) v hv

/-- C9: a workbook whose every relevant data cell is empty yields, for each of
the three extractor variants, a canonical table in which every cell is the
missing marker; the embedded extractors are total, mirroring the absence of
any failure path in the source. -/
theorem empty_sheets_all_missing (wb : Workbook)
    (hD : ∀ r ∈ wb.dataCells, ∀ v ∈ r, v = none)
    (hB : ∀ r ∈ wb.bgCells, ∀ v ∈ r, v = none)
    (hN : ∀ r ∈ wb.nfsCells, ∀ v ∈ r, v = none) :
    (∀ c ∈ parse_data_worksheet wb, ∀ v ∈ c.2, v = none) ∧
    (∀ c ∈ parse_blood_gas_worksheet wb, ∀ v ∈ c.2, v = none) ∧
    (∀ c ∈ parse_nfs_worksheet wb, ∀ v ∈ c.2, v = none) := by
  refine ⟨fun c hc => ?_, fun c hc => ?_, fun c hc => ?_⟩
  · simp only [parse_data_worksheet, List.mem_map] at hc
    obtain ⟨j, _, rfl⟩ := hc
    exact column_all_none wb.dataCells hD j
  · simp only [parse_blood_gas_worksheet, List.mem_map] at hc
    obtain ⟨j, _, rfl⟩ := hc
    exact column_all_none (zipTranspose wb.bgCells) (zipTranspose_all_none wb.bgCells hB) j
  · simp only [parse_nfs_worksheet, List.mem_map] at hc
    obtain ⟨k, _, rfl⟩ := hc
    intro v hv
    have hvals := getD_nested_all_none wb.nfsCells hN k
    rw [nfs_row_explicit] at hv
    have h0 := getD_all_none _ hvals 0
    have h2 := getD_all_none _ hvals 2
    have h4 := getD_all_none _ hvals 4
    have h6 := getD_all_none _ hvals 6
    have h8 := getD_all_none _ hvals 8
    rw [h0, h2, h4, h6, h8] at hv
    simpa using hv

/-- C9 witness: the all-empty workbook `wbEmptyCells` extracts to all-missing
cells in each of the three parsed sheets. -/
theorem empty_sheets_all_missing_witness :
    ((parse_data_worksheet wbEmptyCells).getD 0 ("", [])).2.getD 0 none = none ∧
    ((parse_blood_gas_worksheet wbEmptyCells).getD 0 ("", [])).2.getD 0 none = none ∧
    ((parse_nfs_worksheet wbEmptyCells).getD 0 ("", [])).2.getD 0 none = none := by
  have h := empty_sheets_all_missing wbEmptyCells (by decide) (by decide) (by decide)
  refine ⟨h.1 ((parse_data_worksheet wbEmptyCells).getD 0 ("", [])) (by decide)
            (((parse_data_worksheet wbEmptyCells).getD 0 ("", [])).2.getD 0 none) (by decide),
          h.2.1 ((parse_blood_gas_worksheet wbEmptyCells).getD 0 ("", [])) (by decide)
            (((parse_blood_gas_worksheet wbEmptyCells).getD 0 ("", [])).2.getD 0 none) (by decide),
          h.2.2 ((parse_nfs_worksheet wbEmptyCells).getD 0 ("", [])) (by decide)
            (((parse_nfs_worksheet wbEmptyCells).getD 0 ("", [])).2.getD 0 none) (by decide)⟩

/-! ### C8 — round-trip: slice then index by each canonical time -/

/-- `getD` over a mapped list, at an in-range position. -/
theorem getD_map_get (l : List String) (f : String → PyVal) (i : Fin l.length) :
    (l.map f).getD i none = f (l.get i) := by
  rw [List.getD_eq_getElem?_getD, List.getElem?_map, List.getElem?_eq_getElem i.isLt]
  rfl

/-- Each canonical time label occurs at its own position in `times`. -/
theorem times_indexOf_get : ∀ i : Fin times.length, times.indexOf (times.get i) = (i : ℕ) := by
  decide

/-- C8: when `p` names exactly one column of the loaded workbook's data, the
full property slice is the column over the canonical index in grid order, and
indexing the slice by each of the 12 canonical time labels reproduces exactly
the extractor's value at that position. -/
theorem roundtrip_property_slice (wb : Workbook) (p : String) (col : List PyVal)
    (huniq : (get_data wb).filter (fun c => c.1 = p) = [(p, col)]) :
    get_property_slice wb p none =
      .ok ⟨times, times.map (fun s => col.getD (times.indexOf s) none)⟩ ∧
    ∀ i : Fin times.length,
      seriesGet ⟨times, times.map (fun s => col.getD (times.indexOf s) none)⟩ (times.get i) =
        col.getD (i : ℕ) none := by
  have hfind : (get_data wb).find? (fun c => c.1 = p) = some (p, col) := by
    rw [find?_eq_head?_filter, huniq]
    rfl
  have hcol : data_column wb p = col := by
    rw [data_column, hfind]
    rfl
  have hmem : (p, col) ∈ get_data wb := by
    apply List.mem_of_mem_filter (p := fun c => decide (c.1 = p))
    rw [huniq]
    exact List.mem_singleton.mpr rfl
  have hp : p ∈ (get_data wb).map Prod.fst := List.mem_map.mpr ⟨(p, col), hmem, rfl⟩
  constructor
  · simp only [get_property_slice, if_pos hp, hcol]
    rfl
  · intro i
    rw [seriesGet]
    simp only
    rw [times_indexOf_get i, getD_map_get times _ i, times_indexOf_get i]

/-- C8 witness: for `wbPig1`, slicing `FC` and indexing at the label `T20`
(canonical position 3) reproduces the extractor's value `4`. -/
theorem roundtrip_property_slice_witness :
    get_property_slice wbPig1 "FC" none =
      .ok ⟨times, times.map (fun s =>
        ([some 1, some 2, some 3, some 4, some 5, some 6,
          none, none, none, none, none, none] : List PyVal).getD (times.indexOf s) none)⟩ ∧
    seriesGet ⟨times, times.map (fun s =>
        ([some 1, some 2, some 3, some 4, some 5, some 6,
          none, none, none, none, none, none] : List PyVal).getD (times.indexOf s) none)⟩
      (times.get ⟨3, by decide⟩) = some 4 := by
  have h := roundtrip_property_slice wbPig1 "FC"
    [some 1, some 2, some 3, some 4, some 5, some 6,
     none, none, none, none, none, none] (by decide)
  exact ⟨h.1, h.2 ⟨3, by decide⟩⟩

/-! ### C10 — invalid requested time labels are silently dropped -/

/-- C10: with an explicit list of requested time labels and a known property,
labels outside the canonical grid are dropped (order preserved) and
`InvalidTime` is raised exactly when none of the requested labels is
canonical. -/
theorem property_slice_time_filter (wb : Workbook) (p : String) (ts : List String)
    (hp : p ∈ (get_data wb).map Prod.fst) :
    (get_property_slice wb p (some ts) = .error .invalidTime ↔ ∀ t ∈ ts, t ∉ times) ∧
    (ts.filter (fun s => s ∈ times) ≠ [] →
      get_property_slice wb p (some ts) =
        .ok ⟨ts.filter (fun s => s ∈ times),
             (ts.filter (fun s => s ∈ times)).map
               (fun s => (data_column wb p).getD (times.indexOf s) none)⟩) := by
  have hiff : (ts.filter (fun s => s ∈ times) = []) ↔ ∀ t ∈ ts, t ∉ times := by
    simp [List.filter_eq_nil_iff]
  by_cases hempty : ts.filter (fun s => s ∈ times) = []
  · refine ⟨⟨fun _ => hiff.mp hempty, fun _ => ?_⟩, fun hne => absurd hempty hne⟩
    simp only [get_property_slice, if_pos hp, hempty]
    rfl
  · have hres : get_property_slice wb p (some ts) =
        .ok ⟨ts.filter (fun s => s ∈ times),
             (ts.filter (fun s => s ∈ times)).map
               (fun s => (data_column wb p).getD (times.indexOf s) none)⟩ := by
      simp only [get_property_slice, if_pos hp]
      rw [if_neg (by simpa [List.isEmpty_iff] using hempty)]
    refine ⟨⟨fun herr => ?_, fun hall => absurd (hiff.mpr hall) hempty⟩, fun _ => hres⟩
    rw [hres] at herr
    exact absurd herr (by simp)

/-- C10 witness: for `wbPig1` and property `FC`, the request
`["T0", "bogus", "T6H"]` keeps exactly `["T0", "T6H"]` in order, while the
request `["bogus"]` raises `InvalidTime`. -/
theorem property_slice_time_filter_witness :
    get_property_slice wbPig1 "FC" (some ["bogus"]) = .error .invalidTime ∧
    get_property_slice wbPig1 "FC" (some ["T0", "bogus", "T6H"]) =
      .ok ⟨["T0", "T6H"], [some 2, none]⟩ := by
  have h1 := (property_slice_time_filter wbPig1 "FC" ["bogus"] (by decide)).1.mpr (by decide)
  have h2 := (property_slice_time_filter wbPig1 "FC" ["T0", "bogus", "T6H"]
    (by decide)).2 (by decide)
  refine ⟨h1, ?_⟩
  rw [h2]
  rfl

/-! ### C6 — pooled matrix construction -/

/-- The member loop of `get_pool_data` keeps exactly the resolving members, in
order and with their slice values, and logs one error per dropped member. -/
theorem pool_data_loop_spec (dm : AnimalsDataModel) (p : String) (animals : List String) :
    (pool_data_loop dm p animals).1 =
      (animals.filter (resolves dm p)).map (fun a => (a, resolved_values dm p a)) ∧
    (pool_data_loop dm p animals).2.length = (animals.filter (dropped dm p)).length := by
  induction animals with
  | nil => exact ⟨rfl, rfl⟩
  | cons a rest ih =>
    simp only [pool_data_loop, List.filter_cons]
    cases hwb : dm.get_workbook a with
    | none =>
      have hr : resolves dm p a = false := by simp [resolves, hwb]
      have hd : dropped dm p a = false := by simp [dropped, hwb]
      simp [hr, hd, ih.1, ih.2]
    | some wb =>
      cases hps : get_property_slice wb p none with
      | error e =>
        have hr : resolves dm p a = false := by simp [resolves, hwb, hps, Except.toBool]
        have hd : dropped dm p a = true := by simp [dropped, hwb, hps, Except.toBool]
        simp [hr, hd, hps, ih.1, ih.2]
      | ok ps =>
        have hr : resolves dm p a = true := by simp [resolves, hwb, hps, Except.toBool]
        have hd : dropped dm p a = false := by simp [dropped, hwb, hps, Except.toBool]
        have hrv : resolved_values dm p a = ps.values := by simp [resolved_values, hwb, hps]
        simp [hr, hd, hrv, hps, ih.1, ih.2]

/-- C6: `get_pool_data` raises `InvalidPoolData` exactly when zero members
resolve successfully; otherwise it returns the table whose columns are the
successfully resolved member ids with their time-aligned slices, and it logs
one error per member whose workbook lacks the property (or errors). -/
theorem get_pool_data_spec (m : AnimalsPoolModel) (p : String) :
    ((m.get_pool_data p).1 = .error .invalidPoolData ↔
      m.animals.filter (resolves m.dataModel p) = []) ∧
    (m.animals.filter (resolves m.dataModel p) ≠ [] →
      (m.get_pool_data p).1 =
        .ok ((m.animals.filter (resolves m.dataModel p)).map
              (fun a => (a, resolved_values m.dataModel p a)))) ∧
    (m.get_pool_data p).2.length = (m.animals.filter (dropped m.dataModel p)).length := by
  obtain ⟨h1, h2⟩ := pool_data_loop_spec m.dataModel p m.animals
  by_cases hempty : m.animals.filter (resolves m.dataModel p) = []
  · have hnil : (pool_data_loop m.dataModel p m.animals).1 = [] := by
      rw [h1, hempty]
      rfl
    refine ⟨⟨fun _ => hempty, fun _ => ?_⟩, fun hne => absurd hempty hne, ?_⟩
    · simp [AnimalsPoolModel.get_pool_data, hnil]
    · simpa [AnimalsPoolModel.get_pool_data, hnil] using h2
  · have hne : (pool_data_loop m.dataModel p m.animals).1 ≠ [] := by
      rw [h1]
      intro hc
      exact hempty (List.map_eq_nil_iff.mp hc)
    have hok : (m.get_pool_data p).1 =
        .ok ((m.animals.filter (resolves m.dataModel p)).map
              (fun a => (a, resolved_values m.dataModel p a))) := by
      simp only [AnimalsPoolModel.get_pool_data]
      rw [if_neg (by simpa [List.isEmpty_iff] using hne)]
      rw [h1]
    refine ⟨⟨fun herr => ?_, fun hnil => absurd hnil hempty⟩, fun _ => hok, ?_⟩
    · rw [hok] at herr
      exact absurd herr (by simp)
    · simpa [AnimalsPoolModel.get_pool_data, hne] using h2

/-- C6 witness: in `poolMixed`, the member `pig1` resolves, the member `bad`
is dropped with one log entry, and the member `ghost` (no workbook) is
skipped; the table's single column is `pig1`. -/
theorem get_pool_data_spec_witness :
    (poolMixed.get_pool_data "FC").1 =
      .ok [("pig1", [some 1, some 2, some 3, some 4, some 5, some 6,
                     none, none, none, none, none, none])] ∧
    (poolMixed.get_pool_data "FC").2.length = 1 := by
  have h := (get_pool_data_spec poolMixed "FC").2.1 (by decide)
  have h3 := (get_pool_data_spec poolMixed "FC").2.2
  refine ⟨?_, by rw [h3]; rfl⟩
  rw [h]
  rfl

/-! ### C2, C3 — global group effect -/

/-- `collect_pool_data` succeeds with one pooled entry per selected group, in
order and with the group names preserved. -/
theorem collect_pool_data_names (p : String) :
    ∀ (gs : List (String × AnimalsPoolModel))
      (pooled : List (String × List (String × List PyVal))),
      collect_pool_data p gs = .ok pooled → pooled.map Prod.fst = gs.map Prod.fst := by
  intro gs
  induction gs with
  | nil =>
    intro pooled h
    simp only [collect_pool_data] at h
    cases h
    rfl
  | cons g rest ih =>
    intro pooled h
    simp only [collect_pool_data] at h
    cases hpd : (g.2.get_pool_data p).1 with
    | error e => rw [hpd] at h; cases h
    | ok pd =>
      rw [hpd] at h
      cases hrest : collect_pool_data p rest with
      | error e => rw [hrest] at h; cases h
      | ok tl =>
        rw [hrest] at h
        cases h
        simp [ih tl hrest]

/-- C2: when every selected group's pool resolves and time row `i` has all
per-group samples non-empty, the evaluation returns the table whose row `i`
is each group's sample size followed by the p-value of the dispatched test:
the Kruskal-Wallis test when more than 2 groups are selected, else the
two-sided Mann-Whitney U test (one pooled entry per selected group). -/
theorem global_group_effect_dispatch
    (mannwhitneyu kruskal : List (List ℚ) → Except Unit PyVal)
    (g : AnimalsGroupsModel) (p : String)
    (pooled : List (String × List (String × List PyVal)))
    (h2 : 2 ≤ g.selected_groups.length)
    (hok : collect_pool_data p g.selected_groups = .ok pooled)
    (i : ℕ) (hi : i < times.length)
    (hne : ([] : List ℚ) ∉ group_samples pooled i) :
    g.evaluate_global_group_effect mannwhitneyu kruskal p =
      .ok (some ⟨times, pooled.map Prod.fst ++ ["p value"],
                 group_effect_rows mannwhitneyu kruskal pooled⟩) ∧
    pooled.length = g.selected_groups.length ∧
    (group_effect_rows mannwhitneyu kruskal pooled).getD i [] =
      (group_samples pooled i).map (fun s => (some (s.length : ℚ) : PyVal)) ++
      [py_test_result
        (if 2 < g.selected_groups.length then kruskal (group_samples pooled i)
         else mannwhitneyu (group_samples pooled i))] := by
  have hnames := collect_pool_data_names p g.selected_groups pooled hok
  have hlen : pooled.length = g.selected_groups.length := by
    have := congrArg List.length hnames
    simpa using this
  refine ⟨?_, hlen, ?_⟩
  · simp only [AnimalsGroupsModel.evaluate_global_group_effect]
    rw [if_neg (by omega), hok]
  · rw [group_effect_rows, getD_range_map _ _ i hi]
    simp only
    rw [if_neg hne]
    have hs : (group_samples pooled i).length = pooled.length := by
      simp [group_samples]
    rw [hs, hlen]

/-- C2 witness: two selected groups, all samples at time row 1 non-empty; the
row is the group sizes `[1, 1]` followed by the Mann-Whitney p-value. -/
theorem global_group_effect_dispatch_witness :
    groupsTwo.evaluate_global_group_effect mwHalf kwErr "FC" =
      .ok (some ⟨times, ["g1", "g2", "p value"],
                 group_effect_rows mwHalf kwErr pooledTwo⟩) ∧
    (group_effect_rows mwHalf kwErr pooledTwo).getD 1 [] =
      [some 1, some 1, some (1/2)] := by
  have h := global_group_effect_dispatch mwHalf kwErr groupsTwo "FC" pooledTwo
    (by decide) (by rfl) 1 (by decide) (by decide)
  refine ⟨by rw [h.1]; rfl, ?_⟩
  rw [h.2.2]
  rfl

/-- C3: within one evaluation, a time row `i` at which some selected group's
non-missing sample is empty gets a NaN p-value, while another time row `j`
whose per-group samples are all non-empty still yields the numeric p-value the
dispatched test returns; the empty sample at `i` does not abort the
computation at `j`. -/
theorem global_group_effect_nan_independence
    (mannwhitneyu kruskal : List (List ℚ) → Except Unit PyVal)
    (g : AnimalsGroupsModel) (p : String)
    (pooled : List (String × List (String × List PyVal)))
    (h2 : 2 ≤ g.selected_groups.length)
    (hok : collect_pool_data p g.selected_groups = .ok pooled)
    (i j : ℕ) (hi : i < times.length) (hj : j < times.length)
    (hemp : ([] : List ℚ) ∈ group_samples pooled i)
    (hne : ([] : List ℚ) ∉ group_samples pooled j)
    (q : ℚ)
    (hq : (if 2 < pooled.length then kruskal (group_samples pooled j)
           else mannwhitneyu (group_samples pooled j)) = .ok (some q)) :
    g.evaluate_global_group_effect mannwhitneyu kruskal p =
      .ok (some ⟨times, pooled.map Prod.fst ++ ["p value"],
                 group_effect_rows mannwhitneyu kruskal pooled⟩) ∧
    (group_effect_rows mannwhitneyu kruskal pooled).getD i [] =
      (group_samples pooled i).map (fun s => (some (s.length : ℚ) : PyVal)) ++ [none] ∧
    (group_effect_rows mannwhitneyu kruskal pooled).getD j [] =
      (group_samples pooled j).map (fun s => (some (s.length : ℚ) : PyVal)) ++ [some q] := by
  refine ⟨?_, ?_, ?_⟩
  · simp only [AnimalsGroupsModel.evaluate_global_group_effect]
    rw [if_neg (by omega), hok]
  · rw [group_effect_rows, getD_range_map _ _ i hi]
    simp only
    rw [if_pos hemp]
  · rw [group_effect_rows, getD_range_map _ _ j hj]
    simp only
    rw [if_neg hne]
    have hs : (group_samples pooled j).length = pooled.length := by
      simp [group_samples]
    rw [hs, hq]
    rfl

/-- C3 witness: in `groupsTwo`, group `g2`'s sample is empty at time row 0
(NaN p-value) while time row 1 has full samples and a numeric p-value, in one
and the same evaluation. -/
theorem global_group_effect_nan_independence_witness :
    (group_effect_rows mwHalf kwErr pooledTwo).getD 0 [] = [some 1, some 0, none] ∧
    (group_effect_rows mwHalf kwErr pooledTwo).getD 1 [] =
      [some 1, some 1, some (1/2)] := by
  have h := global_group_effect_nan_independence mwHalf kwErr groupsTwo "FC" pooledTwo
    (by decide) (by rfl) 0 1 (by decide) (by decide) (by decide) (by decide)
    (1/2) (by rfl)
  refine ⟨by rw [h.2.1]; rfl, by rw [h.2.2]; rfl⟩

/-! ### C1 — premortem alignment: the backward scan never moves -/

/-- C1 evaluation at the claim's own example: in `poolPigs`, animal `pig1` has
its last non-missing `FC` sample at canonical index 5 with a non-missing
baseline, and `pig2` has only one valid sample strictly before its last
non-missing sample; with window size `n_target_times = 3` the per-animal
selection nevertheless keeps BOTH animals and anchors both windows at the end
of the canonical grid (`["T3H", "T4H", "T5H", "T6H"]`, all-missing values),
because the backward scan's guard `property_slice[i] == np.nan` is always
false; the claimed stacked data — `pig1` alone, contributing
`[baseline, value@3, value@4, value@5]` — is not produced. -/
theorem premortem_selection_failing_input :
    premortem_selection poolPigs "FC" 3 =
      ([("pig1", [some 1, none, none, none, none]),
        ("pig2", [some 10, none, none, none, none])],
       some ["T-30", "T3H", "T4H", "T5H", "T6H"]) ∧
    (premortem_selection poolPigs "FC" 3).1 ≠
      [("pig1", [some 1, some 4, some 5, some 6])] := by
  exact ⟨by rfl, by decide⟩

/-! ### C4 — premortem with zero usable input -/

/-- When the per-animal loop selects nobody, the loop-local `times` variable
is never assigned. -/
theorem premortem_loop_nil_times (dm : AnimalsDataModel) (p : String) (n : ℕ) :
    ∀ animals, (premortem_loop dm p n animals).1 = [] →
      (premortem_loop dm p n animals).2 = none := by
  intro animals
  induction animals with
  | nil => intro _; rfl
  | cons a rest ih =>
    intro h
    simp only [premortem_loop] at h ⊢
    cases ha : premortem_animal dm p n a with
    | none =>
      rw [ha] at h
      exact ih h
    | some contrib =>
      rw [ha] at h
      simp at h

/-- C4: with a valid window size and every subject of the pool excluded from
the premortem selection, `evaluate_premortem_time_effect` does not surface
`InvalidPoolData`; it aborts with a `NameError` on the never-assigned
loop-local `times` variable (whether the empty posthoc-Dunn call raises a
caught `ValueError` or returns a matrix). -/
theorem premortem_zero_usable_input_error
    (friedman : List (List PyVal) → Except Unit PyVal)
    (dunn : List (List PyVal) → Except PigError (List (List PyVal)))
    (m : AnimalsPoolModel) (p : String) (n : ℕ)
    (hn : 1 ≤ n ∧ n < times.length - 1)
    (hsel : (premortem_selection m p n).1 = [])
    (hdunn : dunn [] = .error .valueError ∨ ∃ mat, dunn [] = .ok mat) :
    m.evaluate_premortem_time_effect friedman dunn p n = .error (.nameError "times") ∧
    m.evaluate_premortem_time_effect friedman dunn p n ≠ .error .invalidPoolData := by
  have htimes : (premortem_selection m p n).2 = none :=
    premortem_loop_nil_times m.dataModel p n m.animals hsel
  have hmain : m.evaluate_premortem_time_effect friedman dunn p n =
      .error (.nameError "times") := by
    rcases hdunn with hd | ⟨mat, hd⟩ <;>
      simp [AnimalsPoolModel.evaluate_premortem_time_effect, if_pos hn, hsel, htimes, hd]
  refine ⟨hmain, ?_⟩
  rw [hmain]
  simp

/-- C4 witness: the pool whose only member has a NaN baseline (everybody
excluded), window size 3, a `ValueError`-raising Friedman stand-in and a
`ValueError`-raising Dunn stand-in. -/
theorem premortem_zero_usable_input_error_witness :
    poolAllExcluded.evaluate_premortem_time_effect friedmanErr dunnErr "FC" 3 =
      .error (.nameError "times") := by
  exact (premortem_zero_usable_input_error friedmanErr dunnErr poolAllExcluded "FC" 3
    (by decide) (by rfl) (Or.inl (by rfl))).1

end Pigcel
